import Mathlib

/-!
# Verification of the AMA content-generation backend

Shallow embedding of the AMA backend (`src/backend/src`) in Lean 4, together
with theorems settling the specification claims about:

* the keyword-based error classifier (`src/tools/error_classification.py`),
* the user-request analyzer (`src/tools/user_request_parser.py`),
* the retrying worker runner (`src/agent/utils.py`,
  `run_worker_with_error_handling`),
* the stage subgraphs and graph nodes (`src/agent/subgraphs.py`,
  `src/agent/nodes.py`).

Python strings are modelled as Lean `String` (lists of characters); Python
`None` becomes `Option.none`; dictionary patches returned by graph nodes are
structures of `Option` fields where `none` means "key absent".  Python
exceptions are modelled with `Except String`.  All definitions are executable
so each theorem can be checked on concrete inputs.
-/

/-! ## Section 1: the error classifier (`_classify_error`) -/

/-- Boolean prefix test on character lists. -/
def prefixB : List Char → List Char → Bool
  | [], _ => true
  | _ :: _, [] => false
  | a :: as, b :: bs => a == b && prefixB as bs

/-- Boolean contiguous-sublist test on character lists. -/
def infixB : List Char → List Char → Bool
  | needle, [] => needle.isEmpty
  | needle, c :: tl => prefixB needle (c :: tl) || infixB needle tl

/-- Python `needle in haystack` on strings: contiguous-substring test. -/
def strContains (haystack needle : String) : Bool :=
  infixB needle.data haystack.data

/-- ASCII model of Python `str.lower()`. -/
def lowerStr (s : String) : String :=
  ⟨s.data.map Char.toLower⟩

/-- Output record of `_classify_error`; the Python function always returns a
dict with exactly these four keys. -/
structure Classification where
  error_type : String
  is_retryable : Bool
  retry_delay_seconds : Nat
  suggestion : String
deriving Repr, DecidableEq

/-- `_classify_error` from `src/tools/error_classification.py`: lower-cases
the message, then applies the keyword rules in source order. -/
def classify_error (error_message : String) (context : String := "") : Classification :=
  let msg := lowerStr error_message
  let _ := context
  if ["timeout", "connection", "network"].any (fun k => strContains msg k) then
    { error_type := "network", is_retryable := true, retry_delay_seconds := 5,
      suggestion := "Network issue, retry later." }
  else if ["429", "rate limit", "quota", "api key", "unauthorized"].any (fun k => strContains msg k) then
    { error_type := "api", is_retryable := true, retry_delay_seconds := 60,
      suggestion := "API limit or auth issue, wait and retry." }
  else if ["invalid", "missing", "required", "validation"].any (fun k => strContains msg k) then
    { error_type := "validation", is_retryable := false, retry_delay_seconds := 0,
      suggestion := "Fix input before retry." }
  else if ["empty response", "blocked", "generation"].any (fun k => strContains msg k) then
    { error_type := "generation", is_retryable := true, retry_delay_seconds := 2,
      suggestion := "Model generation issue, retry once." }
  else
    { error_type := "unknown", is_retryable := true, retry_delay_seconds := 3,
      suggestion := "Unknown error, retry once then stop." }

/-- C9: a message whose lower-casing contains "timeout", "connection" or
"network" is classified by the first rule — `network`, retryable, delay 5 —
regardless of any later-rule keyword also present in the message. -/
theorem network_rule_first (msg ctx : String)
    (h : ["timeout", "connection", "network"].any
      (fun k => strContains (lowerStr msg) k) = true) :
    classify_error msg ctx =
      { error_type := "network", is_retryable := true, retry_delay_seconds := 5,
        suggestion := "Network issue, retry later." } := by
  unfold classify_error
  simp [h]

/-- Witness for C9: "Timeout while invalid input" contains both "timeout" and
"invalid" after lower-casing, and rule 1 wins. -/
theorem network_rule_first_witness :
    (["timeout", "connection", "network"].any
      (fun k => strContains (lowerStr "Timeout while invalid input") k) = true)
    ∧ classify_error "Timeout while invalid input" "ctx" =
      { error_type := "network", is_retryable := true, retry_delay_seconds := 5,
        suggestion := "Network issue, retry later." } :=
  ⟨by decide, network_rule_first "Timeout while invalid input" "ctx" (by decide)⟩

/-- C10: for every message and context, the classification is non-retryable
iff its type is "validation", and its delay is zero iff its type is
"validation". -/
theorem retryable_iff_not_validation (msg ctx : String) :
    ((classify_error msg ctx).is_retryable = false ↔
      (classify_error msg ctx).error_type = "validation")
    ∧ ((classify_error msg ctx).retry_delay_seconds = 0 ↔
      (classify_error msg ctx).error_type = "validation") := by
  unfold classify_error
  dsimp only
  split_ifs <;> decide

/-- Witness for C10 at a concrete input. -/
theorem retryable_iff_not_validation_witness :
    ((classify_error "invalid field" "c").is_retryable = false ↔
      (classify_error "invalid field" "c").error_type = "validation")
    ∧ ((classify_error "invalid field" "c").retry_delay_seconds = 0 ↔
      (classify_error "invalid field" "c").error_type = "validation") :=
  retryable_iff_not_validation "invalid field" "c"

/-! ## Section 2: the user-request analyzer (`_parse_user_request`)

`_parse_user_request` lower-cases the input to detect modality keywords by
substring, then removes the keywords from the raw input with
`re.sub(r"\b(audio|voice|speech|tts|image|photo|picture|art|video|clip|animation)\b", "", ..., flags=re.I)`,
collapses whitespace runs with `re.sub(r"\s+", " ", ...)` and strips.

Because every keyword consists solely of word characters, a `\b`-delimited
match is exactly a maximal word-character run whose lower-casing equals a
keyword; `removeAux` below removes precisely those runs, carrying the current
run in an accumulator.  `collapseAux` replaces each maximal whitespace run by
a single space, carrying a "previous character was whitespace" flag. -/

/-- Python regex `\w` (ASCII): letters, digits, underscore. -/
def isWordChar (c : Char) : Bool := c.isAlphanum || c == '_'

/-- Python regex `\s` (ASCII): space, tab, newline, carriage return,
vertical tab, form feed. -/
def isWsChar (c : Char) : Bool :=
  c == ' ' || c == '\t' || c == '\n' || c == '\r' || c == '\x0b' || c == '\x0c'

/-- The alternation of the removal regex in `_parse_user_request`. -/
def kwStrings : List String :=
  ["audio", "voice", "speech", "tts", "image", "photo", "picture", "art",
   "video", "clip", "animation"]

/-- Does this word run match the removal regex (case-insensitively)? -/
def isKw (w : List Char) : Bool :=
  kwStrings.any (fun k => (w.map Char.toLower) == k.data)

/-- Emit a completed word run: drop it when it is a keyword. -/
def flushWord (buf : List Char) : List Char := if isKw buf then [] else buf

/-- Keyword removal: `buf` is the (reversed-in-order, append-built) current
maximal word-character run not yet emitted. -/
def removeAux : List Char → List Char → List Char
  | buf, [] => flushWord buf
  | buf, c :: cs =>
    if isWordChar c then removeAux (buf ++ [c]) cs
    else flushWord buf ++ c :: removeAux [] cs

/-- `re.sub(r"\b(...keywords...)\b", "", l, flags=re.I)`. -/
def removeKw (l : List Char) : List Char := removeAux [] l

/-- `re.sub(r"\s+", " ", l)`: `pw` records whether the previous character was
whitespace (i.e. we are inside a run that already emitted its space). -/
def collapseAux : Bool → List Char → List Char
  | _, [] => []
  | pw, c :: cs =>
    if isWsChar c then
      (if pw then collapseAux true cs else ' ' :: collapseAux true cs)
    else c :: collapseAux false cs

/-- Whitespace-run collapsing, as applied in `_parse_user_request`. -/
def collapseWs (l : List Char) : List Char := collapseAux false l

/-- Remove trailing whitespace. -/
def dropTrail (l : List Char) : List Char := (l.reverse.dropWhile isWsChar).reverse

/-- Python `str.strip()`. -/
def stripWs (l : List Char) : List Char := dropTrail (l.dropWhile isWsChar)

/-- Output record of `_parse_user_request`. -/
structure ParseResult where
  prompt : String
  requested_modalities : List String
deriving Repr, DecidableEq

/-- Audio detection keywords of `_parse_user_request`. -/
def audioKws : List String := ["audio", "voice", "speech", "tts"]

/-- Image detection keywords of `_parse_user_request`. -/
def imageKws : List String := ["image", "photo", "picture", "art"]

/-- Video detection keywords of `_parse_user_request`. -/
def videoKws : List String := ["video", "clip", "animation"]

/-- `_parse_user_request` from `src/tools/user_request_parser.py`. -/
def parse_user_request (user_input : String) : ParseResult :=
  let text := lowerStr user_input
  let ms :=
    (if audioKws.any (fun k => strContains text k) then ["audio"] else []) ++
    (if imageKws.any (fun k => strContains text k) then ["image"] else []) ++
    (if videoKws.any (fun k => strContains text k) then ["video"] else [])
  let modalities := if ms.isEmpty then ["image", "audio"] else ms
  let cleaned := stripWs (collapseWs (removeKw user_input.data))
  { prompt := if cleaned.isEmpty then user_input else ⟨cleaned⟩,
    requested_modalities := modalities }

/-! ### Keyword-freeness of the analyzer's own output

`noKwB buf l` checks that no maximal word run of `buf ++ l` (with `buf` the
word run currently in progress) lower-cases to a removal keyword.  The lemmas
below show that `removeKw` produces keyword-free text, and that whitespace
collapsing and stripping preserve keyword-freeness, so that removal is a
no-op on the analyzer's own output. -/

/-- Keyword-freeness checker, with the in-progress word run as accumulator. -/
def noKwB : List Char → List Char → Bool
  | buf, [] => !isKw buf
  | buf, c :: cs =>
    if isWordChar c then noKwB (buf ++ [c]) cs else !isKw buf && noKwB [] cs

theorem isKw_nil : isKw [] = false := by decide

theorem wsNotWord {c : Char} (h : isWsChar c = true) : isWordChar c = false := by
  simp [isWsChar] at h
  rcases h with ((((h | h) | h) | h) | h) | h <;> subst h <;> decide

theorem wordNotWs {c : Char} (h : isWordChar c = true) : isWsChar c = false := by
  cases hws : isWsChar c with
  | false => rfl
  | true => rw [wsNotWord hws] at h; exact absurd h (by simp)

/-- On keyword-free input, `removeAux` removes nothing. -/
theorem removeAux_of_noKwB :
    ∀ (z buf : List Char), noKwB buf z = true → removeAux buf z = buf ++ z := by
  intro z
  induction z with
  | nil =>
    intro buf h
    simp [noKwB] at h
    simp [removeAux, flushWord, h]
  | cons c cs ih =>
    intro buf h
    cases hw : isWordChar c with
    | true =>
      rw [noKwB, if_pos hw] at h
      simp [removeAux, hw, ih _ h]
    | false =>
      rw [noKwB, if_neg (by simp [hw])] at h
      simp only [Bool.and_eq_true, Bool.not_eq_true'] at h
      simp [removeAux, hw, flushWord, h.1, ih _ h.2]

/-- Walking the checker over a block of word characters extends the run. -/
theorem noKwB_append_word :
    ∀ (w : List Char), (∀ a ∈ w, isWordChar a = true) →
      ∀ b t, noKwB b (w ++ t) = noKwB (b ++ w) t := by
  intro w
  induction w with
  | nil => intro _ b t; simp
  | cons a w' ih =>
    intro hw b t
    have ha : isWordChar a = true := hw a (by simp)
    have h' : ∀ x ∈ w', isWordChar x = true := fun x hx => hw x (by simp [hx])
    rw [List.cons_append, noKwB, if_pos ha, ih h']
    congr 1
    simp

/-- The output of keyword removal is keyword-free. -/
theorem noKwB_removeAux :
    ∀ (z buf : List Char), (∀ a ∈ buf, isWordChar a = true) →
      noKwB [] (removeAux buf z) = true := by
  intro z
  induction z with
  | nil =>
    intro buf hbuf
    cases hk : isKw buf with
    | true => simp [removeAux, flushWord, hk, noKwB, isKw_nil]
    | false =>
      have : noKwB [] (buf ++ []) = noKwB ([] ++ buf) [] := noKwB_append_word buf hbuf [] []
      simp only [List.append_nil, List.nil_append] at this
      simp [removeAux, flushWord, hk, this, noKwB]
  | cons c cs ih =>
    intro buf hbuf
    cases hw : isWordChar c with
    | true =>
      have hbuf' : ∀ a ∈ buf ++ [c], isWordChar a = true := by
        intro a ha
        rcases List.mem_append.mp ha with h | h
        · exact hbuf a h
        · simp at h; subst h; exact hw
      simp [removeAux, hw, ih _ hbuf']
    | false =>
      cases hk : isKw buf with
      | true =>
        simp [removeAux, hw, flushWord, hk, noKwB, isKw_nil, ih [] (by simp)]
      | false =>
        have hfree : noKwB [] (buf ++ c :: removeAux [] cs) =
            noKwB buf (c :: removeAux [] cs) := by
          have := noKwB_append_word buf hbuf [] (c :: removeAux [] cs)
          simpa using this
        simp [removeAux, hw, flushWord, hk, hfree, noKwB, ih [] (by simp)]

/-- A trailing all-non-word block is passed through unchanged. -/
theorem removeAux_nonword_tail :
    ∀ (t : List Char), (∀ a ∈ t, isWordChar a = false) →
      ∀ buf, removeAux buf t = flushWord buf ++ t := by
  intro t
  induction t with
  | nil => intro _ buf; simp [removeAux]
  | cons c t' ih =>
    intro h buf
    have hc : isWordChar c = false := h c (by simp)
    have h' : ∀ a ∈ t', isWordChar a = false := fun a ha => h a (by simp [ha])
    simp [removeAux, hc, ih h', flushWord, isKw_nil]

/-- Removal distributes over an append whose right part is all non-word. -/
theorem removeAux_append_nonword :
    ∀ (t : List Char), (∀ a ∈ t, isWordChar a = false) →
      ∀ (v buf : List Char), removeAux buf (v ++ t) = removeAux buf v ++ t := by
  intro t ht v
  induction v with
  | nil =>
    intro buf
    simpa [removeAux] using removeAux_nonword_tail t ht buf
  | cons a v' ih =>
    intro buf
    cases hw : isWordChar a with
    | true => simp [removeAux, hw, ih]
    | false => simp [removeAux, hw, ih]

/-- The checker ignores a trailing all-non-word block. -/
theorem noKwB_nonword :
    ∀ (t : List Char), (∀ a ∈ t, isWordChar a = false) →
      ∀ b, noKwB b t = !isKw b := by
  intro t
  induction t with
  | nil => intro _ b; simp [noKwB]
  | cons c t' ih =>
    intro h b
    have hc : isWordChar c = false := h c (by simp)
    have h' : ∀ a ∈ t', isWordChar a = false := fun a ha => h a (by simp [ha])
    simp [noKwB, hc, ih h', isKw_nil]

theorem noKwB_append_nonword :
    ∀ (t : List Char), (∀ a ∈ t, isWordChar a = false) →
      ∀ (v b : List Char), noKwB b (v ++ t) = noKwB b v := by
  intro t ht v
  induction v with
  | nil => intro b; simp [noKwB, noKwB_nonword t ht b]
  | cons a v' ih =>
    intro b
    cases hw : isWordChar a with
    | true => simp [noKwB, hw, ih]
    | false => simp [noKwB, hw, ih]

/-- Whitespace collapsing preserves keyword-freeness (when the previous
character was whitespace — second conjunct — the current word run is empty). -/
theorem noKwB_collapseAux :
    ∀ (z : List Char),
      (∀ b, noKwB b z = true → noKwB b (collapseAux false z) = true) ∧
      (noKwB [] z = true → noKwB [] (collapseAux true z) = true) := by
  intro z
  induction z with
  | nil =>
    exact ⟨fun b h => by simpa [collapseAux] using h,
      fun h => by simpa [collapseAux] using h⟩
  | cons c cs ih =>
    obtain ⟨ihF, ihT⟩ := ih
    have hsw : isWordChar ' ' = false := by decide
    constructor
    · intro b h
      cases hw : isWordChar c with
      | true =>
        have hws := wordNotWs hw
        rw [noKwB, if_pos hw] at h
        rw [collapseAux, if_neg (by simp [hws])]
        rw [noKwB, if_pos hw]
        exact ihF _ h
      | false =>
        rw [noKwB, if_neg (by simp [hw])] at h
        simp only [Bool.and_eq_true, Bool.not_eq_true'] at h
        cases hws : isWsChar c with
        | true =>
          simp only [collapseAux, hws, if_true, Bool.false_eq_true, if_false]
          simp [noKwB, hsw, h.1]
          exact ihT h.2
        | false =>
          simp only [collapseAux, hws, Bool.false_eq_true, if_false]
          simp [noKwB, hw, h.1]
          exact ihF [] h.2
    · intro h
      cases hw : isWordChar c with
      | true =>
        have hws := wordNotWs hw
        rw [noKwB, if_pos hw] at h
        simp only [List.nil_append] at h
        simp only [collapseAux, hws, Bool.false_eq_true, if_false]
        rw [noKwB, if_pos hw]
        simp only [List.nil_append]
        exact ihF [c] h
      | false =>
        rw [noKwB, if_neg (by simp [hw])] at h
        simp only [Bool.and_eq_true, Bool.not_eq_true'] at h
        cases hws : isWsChar c with
        | true =>
          simp only [collapseAux, hws, if_true]
          exact ihT h.2
        | false =>
          simp only [collapseAux, hws, Bool.false_eq_true, if_false]
          simp [noKwB, hw, isKw_nil]
          exact ihF [] h.2

/-- Dropping leading whitespace preserves keyword-freeness. -/
theorem noKwB_dropWhile_ws :
    ∀ (z : List Char), noKwB [] z = true → noKwB [] (z.dropWhile isWsChar) = true := by
  intro z
  induction z with
  | nil => intro h; simpa using h
  | cons c cs ih =>
    intro h
    cases hws : isWsChar c with
    | true =>
      have hw := wsNotWord hws
      rw [noKwB, if_neg (by simp [hw])] at h
      simp only [Bool.and_eq_true, Bool.not_eq_true'] at h
      rw [List.dropWhile_cons, if_pos hws]
      exact ih h.2
    | false =>
      rw [List.dropWhile_cons, if_neg (by simp [hws])]
      exact h

/-- `dropTrail` splits off exactly the trailing whitespace run. -/
theorem dropTrail_append (z : List Char) :
    dropTrail z ++ (z.reverse.takeWhile isWsChar).reverse = z := by
  have h1 := List.takeWhile_append_dropWhile (p := isWsChar) (l := z.reverse)
  calc dropTrail z ++ (z.reverse.takeWhile isWsChar).reverse
      = (z.reverse.takeWhile isWsChar ++ z.reverse.dropWhile isWsChar).reverse := by
        rw [List.reverse_append]; rfl
    _ = z.reverse.reverse := by rw [h1]
    _ = z := List.reverse_reverse z

/-- Dropping trailing whitespace preserves keyword-freeness. -/
theorem noKwB_dropTrail (z : List Char) (h : noKwB [] z = true) :
    noKwB [] (dropTrail z) = true := by
  have ht : ∀ a ∈ (z.reverse.takeWhile isWsChar).reverse, isWordChar a = false := by
    intro a ha
    rw [List.mem_reverse] at ha
    exact wsNotWord (List.mem_takeWhile_imp ha)
  have heq := noKwB_append_nonword _ ht (dropTrail z) []
  rw [dropTrail_append z] at heq
  rw [heq] at h
  exact h

/-- The analyzer's cleaned output is keyword-free. -/
theorem noKwB_cleaned (x : List Char) :
    noKwB [] (stripWs (collapseWs (removeKw x))) = true := by
  have h0 : noKwB [] (removeKw x) = true := noKwB_removeAux x [] (by simp)
  have h1 : noKwB [] (collapseWs (removeKw x)) = true :=
    (noKwB_collapseAux (removeKw x)).1 [] h0
  exact noKwB_dropTrail _ (noKwB_dropWhile_ws _ h1)

/-- Keyword removal is a no-op on the analyzer's cleaned output. -/
theorem removeKw_cleaned (x : List Char) :
    removeKw (stripWs (collapseWs (removeKw x))) = stripWs (collapseWs (removeKw x)) := by
  have h := removeAux_of_noKwB _ [] (noKwB_cleaned x)
  simpa [removeKw] using h

/-! ### Whitespace normal form

`goodB pw l` checks that in `l` every whitespace character is a single space
not preceded (`pw`) or followed by further whitespace.  Collapsing always
produces such text, and on such text collapsing is a no-op; stripping
preserves it. -/

/-- Whitespace-normal-form checker; `pw` = "previous character was
whitespace". -/
def goodB : Bool → List Char → Bool
  | _, [] => true
  | pw, c :: cs =>
    if isWsChar c then (!pw && (c == ' ')) && goodB true cs
    else goodB false cs

/-- Collapsing is a no-op on whitespace-normal text. -/
theorem collapseAux_of_goodB :
    ∀ (z : List Char),
      (goodB false z = true → collapseAux false z = z) ∧
      (goodB true z = true → collapseAux true z = z) := by
  intro z
  induction z with
  | nil => exact ⟨fun _ => rfl, fun _ => rfl⟩
  | cons c cs ih =>
    obtain ⟨ihF, ihT⟩ := ih
    constructor
    · intro h
      cases hws : isWsChar c with
      | true =>
        rw [goodB, if_pos hws] at h
        simp only [Bool.and_eq_true, Bool.not_eq_true', beq_iff_eq] at h
        simp only [collapseAux, hws, if_true, Bool.false_eq_true, if_false]
        rw [← h.1.2, ihT h.2]
      | false =>
        rw [goodB, if_neg (by simp [hws])] at h
        simp only [collapseAux, hws, Bool.false_eq_true, if_false]
        rw [ihF h]
    · intro h
      cases hws : isWsChar c with
      | true =>
        rw [goodB, if_pos hws] at h
        simp at h
      | false =>
        rw [goodB, if_neg (by simp [hws])] at h
        simp only [collapseAux, hws, Bool.false_eq_true, if_false]
        rw [ihF h]

/-- Collapsing produces whitespace-normal text (after a collapsed whitespace
run — second conjunct — the next emitted character is not whitespace). -/
theorem goodB_collapseAux :
    ∀ (z : List Char),
      goodB false (collapseAux false z) = true ∧
      goodB true (collapseAux true z) = true := by
  intro z
  induction z with
  | nil => exact ⟨rfl, rfl⟩
  | cons c cs ih =>
    obtain ⟨ihF, ihT⟩ := ih
    have hs : isWsChar ' ' = true := by decide
    constructor
    · cases hws : isWsChar c with
      | true =>
        simp only [collapseAux, hws, if_true, Bool.false_eq_true, if_false]
        rw [goodB, if_pos hs]
        simpa using ihT
      | false =>
        simp only [collapseAux, hws, Bool.false_eq_true, if_false]
        rw [goodB, if_neg (by simp [hws])]
        exact ihF
    · cases hws : isWsChar c with
      | true =>
        simp only [collapseAux, hws, if_true]
        exact ihT
      | false =>
        simp only [collapseAux, hws, Bool.false_eq_true, if_false]
        rw [goodB, if_neg (by simp [hws])]
        exact ihF

/-- The checker only looks at a prefix of its input. -/
theorem goodB_prefix :
    ∀ (u w : List Char) (pw : Bool), goodB pw (u ++ w) = true → goodB pw u = true := by
  intro u
  induction u with
  | nil => intro _ _ _; rfl
  | cons c u' ih =>
    intro w pw h
    cases hws : isWsChar c with
    | true =>
      rw [List.cons_append, goodB, if_pos hws] at h
      simp only [Bool.and_eq_true] at h
      rw [goodB, if_pos hws]
      simp only [Bool.and_eq_true]
      exact ⟨h.1, ih w true h.2⟩
    | false =>
      rw [List.cons_append, goodB, if_neg (by simp [hws])] at h
      rw [goodB, if_neg (by simp [hws])]
      exact ih w false h

theorem goodB_true_false {z : List Char} (h : goodB true z = true) :
    goodB false z = true := by
  cases z with
  | nil => rfl
  | cons c cs =>
    cases hws : isWsChar c with
    | true => rw [goodB, if_pos hws] at h; simp at h
    | false =>
      rw [goodB, if_neg (by simp [hws])] at h
      rw [goodB, if_neg (by simp [hws])]
      exact h

/-- Dropping leading whitespace preserves whitespace normal form. -/
theorem goodB_dropWhile_ws :
    ∀ (z : List Char), goodB false z = true →
      goodB false (z.dropWhile isWsChar) = true := by
  intro z
  induction z with
  | nil => intro _; rfl
  | cons c cs ih =>
    intro h
    cases hws : isWsChar c with
    | true =>
      rw [goodB, if_pos hws] at h
      simp only [Bool.and_eq_true] at h
      rw [List.dropWhile_cons, if_pos hws]
      exact ih (goodB_true_false h.2)
    | false =>
      rw [List.dropWhile_cons, if_neg (by simp [hws])]
      exact h

/-- Dropping trailing whitespace preserves whitespace normal form. -/
theorem goodB_dropTrail (z : List Char) (h : goodB false z = true) :
    goodB false (dropTrail z) = true := by
  have hd := dropTrail_append z
  exact goodB_prefix (dropTrail z) _ false (by rw [hd]; exact h)

theorem dropWhile_ws_idem (l : List Char) :
    (l.dropWhile isWsChar).dropWhile isWsChar = l.dropWhile isWsChar := by
  induction l with
  | nil => rfl
  | cons c cs ih =>
    cases hp : isWsChar c with
    | true => rw [List.dropWhile_cons, if_pos hp]; exact ih
    | false =>
      rw [List.dropWhile_cons, if_neg (by simp [hp]), List.dropWhile_cons,
        if_neg (by simp [hp])]

theorem dropTrail_idem (z : List Char) : dropTrail (dropTrail z) = dropTrail z := by
  unfold dropTrail
  rw [List.reverse_reverse, dropWhile_ws_idem]

theorem dropWhile_head_not (p : Char → Bool) (l : List Char) :
    l.dropWhile p = [] ∨ ∃ c t, l.dropWhile p = c :: t ∧ p c = false := by
  induction l with
  | nil => exact Or.inl rfl
  | cons c cs ih =>
    cases hp : p c with
    | true => rw [List.dropWhile_cons, if_pos hp]; exact ih
    | false =>
      exact Or.inr ⟨c, cs, by rw [List.dropWhile_cons, if_neg (by simp [hp])], hp⟩

/-- Stripping is idempotent: a stripped list has no leading or trailing
whitespace left. -/
theorem stripWs_idem (z : List Char) : stripWs (stripWs z) = stripWs z := by
  have hy : stripWs z = dropTrail (z.dropWhile isWsChar) := rfl
  have hdw : (stripWs z).dropWhile isWsChar = stripWs z := by
    rcases dropWhile_head_not isWsChar z with h0 | ⟨c, t, hct, hc⟩
    · rw [hy, h0]; rfl
    · cases hyy : dropTrail (z.dropWhile isWsChar) with
      | nil => rw [hy, hyy]; rfl
      | cons d y' =>
        have hsplit := dropTrail_append (z.dropWhile isWsChar)
        rw [hyy, hct, List.cons_append] at hsplit
        have hd : d = c := (List.cons.injEq _ _ _ _ ▸ hsplit).1
        rw [hy, hyy, List.dropWhile_cons, if_neg (by simp [hd, hc])]
  have hdt : dropTrail (stripWs z) = stripWs z := by
    rw [hy, dropTrail_idem]
  show dropTrail ((stripWs z).dropWhile isWsChar) = stripWs z
  rw [hdw, hdt]

/-- Collapsing is a no-op on the analyzer's cleaned output. -/
theorem collapseWs_cleaned (w : List Char) :
    collapseWs (stripWs (collapseWs w)) = stripWs (collapseWs w) := by
  have g1 : goodB false (collapseWs w) = true := (goodB_collapseAux w).1
  have g2 : goodB false (stripWs (collapseWs w)) = true :=
    goodB_dropTrail _ (goodB_dropWhile_ws _ g1)
  exact (collapseAux_of_goodB _).1 g2

/-- C8 (amended): the analyzer's prompt is idempotent — re-analyzing the
prompt returned by `_parse_user_request` reproduces the same prompt.  (The
modality set is not preserved; see the counterexample.) -/
theorem parse_prompt_idem (x : String) :
    (parse_user_request (parse_user_request x).prompt).prompt =
      (parse_user_request x).prompt := by
  by_cases h : (stripWs (collapseWs (removeKw x.data))).isEmpty = true
  · have hp : (parse_user_request x).prompt = x := by
      simp [parse_user_request, h]
    rw [hp]
    exact hp
  · have hp : (parse_user_request x).prompt =
        ⟨stripWs (collapseWs (removeKw x.data))⟩ := by
      simp [parse_user_request, h]
    rw [hp]
    have h1 : removeKw (stripWs (collapseWs (removeKw x.data))) =
        stripWs (collapseWs (removeKw x.data)) := removeKw_cleaned x.data
    have h2 := collapseWs_cleaned (removeKw x.data)
    have h3 := stripWs_idem (collapseWs (removeKw x.data))
    have hcl : stripWs (collapseWs (removeKw
        ((⟨stripWs (collapseWs (removeKw x.data))⟩ : String).data))) =
        stripWs (collapseWs (removeKw x.data)) := by
      show stripWs (collapseWs (removeKw (stripWs (collapseWs (removeKw x.data))))) = _
      rw [h1, h2]
      exact h3
    simp [parse_user_request, hcl, h]

/-- C8 counterexample: the modality set is not idempotent.  Parsing
"make audio thing" yields modalities `["audio"]` and prompt "make thing";
re-parsing that prompt finds no keyword and falls back to the default
`["image", "audio"]`, which contains "image" while the first result does
not. -/
theorem parse_modalities_not_idem_cex :
    "image" ∈ (parse_user_request
        (parse_user_request "make audio thing").prompt).requested_modalities
    ∧ "image" ∉ (parse_user_request "make audio thing").requested_modalities := by
  decide

/-- C7 counterexample: on "make me a short audio clip about courage" the
parser's modality set also contains "video" (keyword "clip"), so it is not
exactly the singleton audio set. -/
theorem scenario_a_modalities_cex :
    "video" ∈ (parse_user_request
        "make me a short audio clip about courage").requested_modalities
    ∧ ("video" : String) ≠ "audio" := by
  decide

/-- C7 (amended): on "make me a short audio clip about courage" the parser
returns modalities `["audio", "video"]` ("clip" is a video keyword) and the
prompt with the tokens "audio" and "clip" removed and whitespace
collapsed. -/
theorem scenario_a_parse :
    parse_user_request "make me a short audio clip about courage" =
      { prompt := "make me a short about courage",
        requested_modalities := ["audio", "video"] } := by
  decide

/-! ## Section 3: the retry runner (`run_worker_with_error_handling`)

`run_worker_with_error_handling` in `src/agent/utils.py` runs
`worker.process` up to `max_retries` times.  A worker invocation is modelled
as a function of the (0-based) attempt index and may return a successful
result, an unsuccessful result carrying `result.error` (possibly `None`), or
raise.  The classifier is a function of `(error_message, context)` that
either returns a classification dict or raises (`Except.error`).  The runner
returns its Python result together with a trace of worker invocations,
classifier invocations and sleeps; an `Except.error` result models an
exception propagating out of the runner. -/

/-- Outcome of one `worker.process(input_data)` call. -/
inductive WorkerOutcome (ω μ : Type) where
  | ok (output : ω) (metadata : μ)
  | fail (error : Option String)
  | exn (msg : String)

/-- The dict returned by `run_worker_with_error_handling`. -/
inductive RunnerResult (ω μ : Type) where
  | completed (output : ω) (metadata : μ)
  | failed (error : String) (error_type : String) (suggestion : String)
deriving DecidableEq

/-- Observable events of one runner execution. -/
inductive RunEvent where
  | workerCall (attempt : Nat)
  | classifierCall
  | sleep (seconds : Nat)
deriving Repr, DecidableEq

/-- Python `str` applied to `last_error` (an `Optional[str]`). -/
def pyStr : Option String → String
  | none => "None"
  | some s => s

/-- The final classification after the attempt loop: `error_classifier.invoke`
is called outside any try/except, so a classifier exception propagates. -/
def finalClassify {ω μ : Type}
    (classifier : String → String → Except String Classification)
    (context : String) (last_error : Option String) :
    Except String (RunnerResult ω μ) × List RunEvent :=
  match classifier (pyStr last_error) context with
  | .error e => (.error e, [.classifierCall])
  | .ok cls =>
    (.ok (.failed (pyStr last_error) cls.error_type cls.suggestion),
      [.classifierCall])

/-- Continuation after a failed attempt `attempt` with new last error `le`:
if attempts remain (`fuel ≠ 0`) the classifier decides between sleeping and
retrying (`recur`), stopping on "not retryable", or stopping because the
classifier itself raised; otherwise the loop exits.  Either stop falls
through to `finalClassify`. -/
def afterFailure {ω μ : Type}
    (classifier : String → String → Except String Classification)
    (context : String) (le : Option String) (fuel attempt : Nat)
    (recur : Option String → Except String (RunnerResult ω μ) × List RunEvent) :
    Except String (RunnerResult ω μ) × List RunEvent :=
  let fc := @finalClassify ω μ classifier context le
  if fuel = 0 then
    (fc.1, .workerCall attempt :: fc.2)
  else
    match classifier (pyStr le) context with
    | .error _ =>
      (fc.1, .workerCall attempt :: .classifierCall :: fc.2)
    | .ok cls =>
      if cls.is_retryable then
        ((recur le).1,
          .workerCall attempt :: .classifierCall ::
            .sleep cls.retry_delay_seconds :: (recur le).2)
      else
        (fc.1, .workerCall attempt :: .classifierCall :: fc.2)

/-- The `while attempt < max_retries` loop; `fuel = max_retries - attempt`. -/
def runLoop {ω μ : Type} (worker : Nat → WorkerOutcome ω μ)
    (classifier : String → String → Except String Classification)
    (context : String) :
    Nat → Nat → Option String →
      Except String (RunnerResult ω μ) × List RunEvent
  | 0, _, last_error => finalClassify classifier context last_error
  | fuel + 1, attempt, _ =>
    match worker attempt with
    | .ok out meta => (.ok (.completed out meta), [.workerCall attempt])
    | .fail err =>
      afterFailure classifier context err fuel attempt
        (fun le => runLoop worker classifier context fuel (attempt + 1) le)
    | .exn m =>
      afterFailure classifier context (some m) fuel attempt
        (fun le => runLoop worker classifier context fuel (attempt + 1) le)

/-- `run_worker_with_error_handling` from `src/agent/utils.py`. -/
def run_worker_with_error_handling {ω μ : Type} (worker : Nat → WorkerOutcome ω μ)
    (context : String)
    (classifier : String → String → Except String Classification)
    (max_retries : Nat := 3) :
    Except String (RunnerResult ω μ) × List RunEvent :=
  runLoop worker classifier context max_retries 0 none

/-- Number of `worker.process` invocations in a trace. -/
def countWorkerCalls (evs : List RunEvent) : Nat :=
  (evs.filter fun e => match e with | .workerCall _ => true | _ => false).length

/-- Number of classifier invocations in a trace. -/
def countClassifierCalls (evs : List RunEvent) : Nat :=
  (evs.filter fun e => match e with | .classifierCall => true | _ => false).length

theorem countWorkerCalls_cons_worker (n : Nat) (evs : List RunEvent) :
    countWorkerCalls (.workerCall n :: evs) = countWorkerCalls evs + 1 := by
  simp [countWorkerCalls, List.filter_cons]

theorem countWorkerCalls_cons_cls (evs : List RunEvent) :
    countWorkerCalls (.classifierCall :: evs) = countWorkerCalls evs := by
  simp [countWorkerCalls, List.filter_cons]

theorem countWorkerCalls_cons_sleep (d : Nat) (evs : List RunEvent) :
    countWorkerCalls (.sleep d :: evs) = countWorkerCalls evs := by
  simp [countWorkerCalls, List.filter_cons]

theorem countClassifierCalls_cons_worker (n : Nat) (evs : List RunEvent) :
    countClassifierCalls (.workerCall n :: evs) = countClassifierCalls evs := by
  simp [countClassifierCalls, List.filter_cons]

theorem countClassifierCalls_cons_cls (evs : List RunEvent) :
    countClassifierCalls (.classifierCall :: evs) = countClassifierCalls evs + 1 := by
  simp [countClassifierCalls, List.filter_cons]

theorem countClassifierCalls_cons_sleep (d : Nat) (evs : List RunEvent) :
    countClassifierCalls (.sleep d :: evs) = countClassifierCalls evs := by
  simp [countClassifierCalls, List.filter_cons]

theorem countWorkerCalls_finalClassify {ω μ : Type}
    (classifier : String → String → Except String Classification)
    (ctx : String) (le : Option String) :
    countWorkerCalls (@finalClassify ω μ classifier ctx le).2 = 0 := by
  cases hc : classifier (pyStr le) ctx <;>
    simp [finalClassify, hc, countWorkerCalls, List.filter]

theorem countClassifierCalls_finalClassify {ω μ : Type}
    (classifier : String → String → Except String Classification)
    (ctx : String) (le : Option String) :
    countClassifierCalls (@finalClassify ω μ classifier ctx le).2 = 1 := by
  cases hc : classifier (pyStr le) ctx <;>
    simp [finalClassify, hc, countClassifierCalls, List.filter]

/-- The loop performs at most `fuel` worker invocations. -/
theorem countWorkerCalls_runLoop {ω μ : Type} (worker : Nat → WorkerOutcome ω μ)
    (classifier : String → String → Except String Classification) (ctx : String) :
    ∀ (fuel a : Nat) (le : Option String),
      countWorkerCalls (runLoop worker classifier ctx fuel a le).2 ≤ fuel := by
  intro fuel
  induction fuel with
  | zero =>
    intro a le
    simp [runLoop, countWorkerCalls_finalClassify]
  | succ fuel ih =>
    intro a le
    rw [runLoop]
    cases hw : worker a with
    | ok out meta => simp [countWorkerCalls, List.filter]
    | fail err =>
      simp only [afterFailure]
      by_cases hf : fuel = 0
      · simp [hf, countWorkerCalls_cons_worker, countWorkerCalls_finalClassify]
      · simp only [hf, if_false]
        cases hc : classifier (pyStr err) ctx with
        | error e =>
          simp [countWorkerCalls_cons_worker, countWorkerCalls_cons_cls,
            countWorkerCalls_finalClassify]
        | ok cls =>
          by_cases hr : cls.is_retryable = true
          · simp only [hr, if_true, countWorkerCalls_cons_worker,
              countWorkerCalls_cons_cls, countWorkerCalls_cons_sleep]
            have := ih (a + 1) err
            omega
          · simp only [Bool.not_eq_true] at hr
            simp [hr, countWorkerCalls_cons_worker, countWorkerCalls_cons_cls,
              countWorkerCalls_finalClassify]
    | exn m =>
      simp only [afterFailure]
      by_cases hf : fuel = 0
      · simp [hf, countWorkerCalls_cons_worker, countWorkerCalls_finalClassify]
      · simp only [hf, if_false]
        cases hc : classifier (pyStr (some m)) ctx with
        | error e =>
          simp [countWorkerCalls_cons_worker, countWorkerCalls_cons_cls,
            countWorkerCalls_finalClassify]
        | ok cls =>
          by_cases hr : cls.is_retryable = true
          · simp only [hr, if_true, countWorkerCalls_cons_worker,
              countWorkerCalls_cons_cls, countWorkerCalls_cons_sleep]
            have := ih (a + 1) (some m)
            omega
          · simp only [Bool.not_eq_true] at hr
            simp [hr, countWorkerCalls_cons_worker, countWorkerCalls_cons_cls,
              countWorkerCalls_finalClassify]

/-- The loop performs at most `fuel` classifier invocations (for `fuel ≥ 1`):
at most one mid-loop classification per non-final failed attempt plus the one
final classification. -/
theorem countClassifierCalls_runLoop {ω μ : Type} (worker : Nat → WorkerOutcome ω μ)
    (classifier : String → String → Except String Classification) (ctx : String) :
    ∀ (fuel a : Nat) (le : Option String), 1 ≤ fuel →
      countClassifierCalls (runLoop worker classifier ctx fuel a le).2 ≤ fuel := by
  intro fuel
  induction fuel with
  | zero => intro a le h; omega
  | succ fuel ih =>
    intro a le _
    rw [runLoop]
    cases hw : worker a with
    | ok out meta => simp [countClassifierCalls, List.filter]
    | fail err =>
      simp only [afterFailure]
      by_cases hf : fuel = 0
      · simp [hf, countClassifierCalls_cons_worker, countClassifierCalls_finalClassify]
      · simp only [hf, if_false]
        cases hc : classifier (pyStr err) ctx with
        | error e =>
          simp only [countClassifierCalls_cons_worker, countClassifierCalls_cons_cls,
            countClassifierCalls_finalClassify]
          omega
        | ok cls =>
          by_cases hr : cls.is_retryable = true
          · simp only [hr, if_true, countClassifierCalls_cons_worker,
              countClassifierCalls_cons_cls, countClassifierCalls_cons_sleep]
            have := ih (a + 1) err (by omega)
            omega
          · simp only [Bool.not_eq_true] at hr
            simp only [hr, Bool.false_eq_true, if_false,
              countClassifierCalls_cons_worker, countClassifierCalls_cons_cls,
              countClassifierCalls_finalClassify]
            omega
    | exn m =>
      simp only [afterFailure]
      by_cases hf : fuel = 0
      · simp [hf, countClassifierCalls_cons_worker, countClassifierCalls_finalClassify]
      · simp only [hf, if_false]
        cases hc : classifier (pyStr (some m)) ctx with
        | error e =>
          simp only [countClassifierCalls_cons_worker, countClassifierCalls_cons_cls,
            countClassifierCalls_finalClassify]
          omega
        | ok cls =>
          by_cases hr : cls.is_retryable = true
          · simp only [hr, if_true, countClassifierCalls_cons_worker,
              countClassifierCalls_cons_cls, countClassifierCalls_cons_sleep]
            have := ih (a + 1) (some m) (by omega)
            omega
          · simp only [Bool.not_eq_true] at hr
            simp only [hr, Bool.false_eq_true, if_false,
              countClassifierCalls_cons_worker, countClassifierCalls_cons_cls,
              countClassifierCalls_finalClassify]
            omega

/-- C4: for `max_retries ≥ 1`, the runner invokes the worker at most
`max_retries` times and the classifier at most `max_retries` times total; if
the first attempt succeeds, the worker is invoked exactly once, the
classifier never, and the result is `completed` with the worker's output and
metadata. -/
theorem retry_runner_bounds {ω μ : Type} (worker : Nat → WorkerOutcome ω μ)
    (classifier : String → String → Except String Classification)
    (ctx : String) (n : Nat) (hn : 1 ≤ n) :
    countWorkerCalls (run_worker_with_error_handling worker ctx classifier n).2 ≤ n ∧
    countClassifierCalls (run_worker_with_error_handling worker ctx classifier n).2 ≤ n ∧
    ∀ out meta, worker 0 = .ok out meta →
      run_worker_with_error_handling worker ctx classifier n =
        (.ok (.completed out meta), [.workerCall 0]) := by
  refine ⟨countWorkerCalls_runLoop worker classifier ctx n 0 none,
    countClassifierCalls_runLoop worker classifier ctx n 0 none hn, ?_⟩
  intro out meta hw
  obtain ⟨m, rfl⟩ : ∃ m, n = m + 1 := ⟨n - 1, by omega⟩
  rw [run_worker_with_error_handling, runLoop, hw]

/-- Witness for C4: a worker succeeding immediately, `max_retries = 3`. -/
theorem retry_runner_bounds_witness :
    (1 ≤ 3) ∧
    (countWorkerCalls (run_worker_with_error_handling
        (fun _ => WorkerOutcome.ok () () : Nat → WorkerOutcome Unit Unit)
        "prompt_enhancer" (fun _ _ => Except.error "unused") 3).2 ≤ 3 ∧
      countClassifierCalls (run_worker_with_error_handling
        (fun _ => WorkerOutcome.ok () () : Nat → WorkerOutcome Unit Unit)
        "prompt_enhancer" (fun _ _ => Except.error "unused") 3).2 ≤ 3 ∧
      ∀ out meta, (fun _ => WorkerOutcome.ok () () : Nat → WorkerOutcome Unit Unit) 0 =
          .ok out meta →
        run_worker_with_error_handling
          (fun _ => WorkerOutcome.ok () () : Nat → WorkerOutcome Unit Unit)
          "prompt_enhancer" (fun _ _ => Except.error "unused") 3 =
          (.ok (.completed out meta), [.workerCall 0])) :=
  ⟨by omega, retry_runner_bounds (fun _ => WorkerOutcome.ok () ())
    (fun _ _ => Except.error "unused") "prompt_enhancer" 3 (by omega)⟩

/-- C5: when an attempt fails and the mid-loop classification says
"not retryable", the runner performs no sleep and no further worker
invocation, and returns `failed` populated from a classification of the last
recorded error (the final classification repeats the same call and yields the
same result). -/
theorem non_retryable_stops {ω μ : Type} (worker : Nat → WorkerOutcome ω μ)
    (classifier : String → String → Except String Classification)
    (ctx : String) (f a : Nat) (le err : Option String) (cls : Classification)
    (hw : worker a = .fail err)
    (hc : classifier (pyStr err) ctx = .ok cls)
    (hr : cls.is_retryable = false) :
    runLoop worker classifier ctx (f + 2) a le =
      (.ok (.failed (pyStr err) cls.error_type cls.suggestion),
        [.workerCall a, .classifierCall, .classifierCall]) := by
  rw [runLoop, hw]
  simp [afterFailure, hc, hr, finalClassify]

/-- Witness for C5: a validation error, classified by `classify_error`
(lifted to a total classifier) as non-retryable, stops after one attempt. -/
theorem non_retryable_stops_witness :
    ((fun _ => WorkerOutcome.fail (some "invalid input") :
        Nat → WorkerOutcome Unit Unit) 0 = .fail (some "invalid input")
    ∧ (fun m c => Except.ok (classify_error m c) :
        String → String → Except String Classification)
        (pyStr (some "invalid input")) "image_generator" =
        .ok (classify_error "invalid input" "image_generator")
    ∧ (classify_error "invalid input" "image_generator").is_retryable = false)
    ∧ runLoop (fun _ => WorkerOutcome.fail (some "invalid input") :
        Nat → WorkerOutcome Unit Unit)
      (fun m c => Except.ok (classify_error m c)) "image_generator" (1 + 2) 0 none =
      (.ok (.failed (pyStr (some "invalid input"))
          (classify_error "invalid input" "image_generator").error_type
          (classify_error "invalid input" "image_generator").suggestion),
        [.workerCall 0, .classifierCall, .classifierCall]) :=
  ⟨⟨rfl, rfl, by decide⟩,
    non_retryable_stops (fun _ => WorkerOutcome.fail (some "invalid input"))
      (fun m c => Except.ok (classify_error m c)) "image_generator" 1 0 none
      (some "invalid input") (classify_error "invalid input" "image_generator")
      rfl rfl (by decide)⟩

/-- C6 (code bug): when the mid-loop classifier raises after a failed
attempt, the loop stops — but the final classification outside the loop
invokes the same classifier on the same arguments unprotected, so the
exception propagates to the caller instead of a `failed` result being
returned. -/
theorem classifier_exception_propagates :
    run_worker_with_error_handling
      (fun _ => WorkerOutcome.fail (some "boom") : Nat → WorkerOutcome Unit Unit)
      "audio_generator" (fun _ _ => Except.error "classifier down") 2 =
      (Except.error "classifier down",
        [RunEvent.workerCall 0, RunEvent.classifierCall, RunEvent.classifierCall]) := by
  rfl

/-! ## Section 4: stage subgraphs and graph nodes

Each stage subgraph (`src/agent/subgraphs.py`) is a single-node LangGraph
whose `_run` validates its required field, runs the worker through the retry
runner with `classify_error` as the classifier, and returns a state patch.
Invoking a compiled subgraph yields the payload merged with that patch
(`status` overwrites; `errors` is `operator.add`-merged).  The graph nodes
(`src/agent/nodes.py`) receive the compiled subgraph as a function and
return a patch on `OverallState`; patches are structures of `Option` fields
where `none` means the key is absent from the returned dict.  The untouched
LangGraph `messages` channel of `OverallState` is omitted.  Raising
`ValueError` is modelled as `Except.error`. -/

/-- Python truthiness of an `Optional[str]`. -/
def truthyS : Option String → Bool
  | none => false
  | some s => !s.isEmpty

/-- `classify_error` as the (total, never-raising) classifier passed by every
subgraph to the retry runner. -/
def classifyErrorE (m c : String) : Except String Classification :=
  Except.ok (classify_error m c)

/-- `result["output"]` of the audio worker: a dict read with
`.get("audio_path", "")`. -/
structure AudioOutput where
  audio_path : Option String := none
deriving DecidableEq

/-- `AudioState` from `src/agent/state.py` (all keys optional). -/
structure AudioState where
  script : Option String := none
  main_statement : Option String := none
  voice : Option String := none
  audio_path : Option String := none
  status : Option String := none
  errors : List String := []
deriving DecidableEq

/-- Patch returned by the audio subgraph's `_run` (`none` = key absent). -/
structure AudioPatch where
  audio_path : Option String := none
  status : Option String := none
  errors : Option (List String) := none
deriving DecidableEq

/-- LangGraph merge of a patch into `AudioState`: plain channels overwrite,
`errors` appends. -/
def mergeAudio (s : AudioState) (p : AudioPatch) : AudioState :=
  { s with
    audio_path := p.audio_path.or s.audio_path,
    status := p.status.or s.status,
    errors := s.errors ++ p.errors.getD [] }

/-- `_run` of `build_audio_subgraph`: validate `script`, run the worker with
retries, and report success as `audio_path`/`completed` or failure as
`failed` plus an `errors` entry (the classification's suggestion). -/
def audio_run (worker : Nat → WorkerOutcome AudioOutput Unit) (max_retries : Nat)
    (state : AudioState) : Except String AudioPatch :=
  match state.script with
  | none =>
    .ok { status := some "failed", errors := some ["Missing required fields: script"] }
  | some _ =>
    match (run_worker_with_error_handling worker "audio_generator"
        classifyErrorE max_retries).1 with
    | .error e => .error e
    | .ok (.completed out _) =>
      .ok { audio_path := some (out.audio_path.getD ""), status := some "completed" }
    | .ok (.failed _ _ sugg) =>
      .ok { status := some "failed", errors := some [sugg] }

/-- The compiled audio subgraph: `ainvoke(payload)` returns the payload
merged with `_run`'s patch. -/
def audio_graph (worker : Nat → WorkerOutcome AudioOutput Unit) (max_retries : Nat)
    (payload : AudioState) : Except String AudioState :=
  (audio_run worker max_retries payload).map (mergeAudio payload)

/-- `OverallState` from `src/agent/state.py` (without the untouched
`messages` channel). -/
structure OverallState where
  request_id : Option String := none
  user_prompt : Option String := none
  requested_modalities : List String := []
  enhanced_prompt : Option String := none
  main_statement : Option String := none
  audio_path : Option String := none
  image_path : Option String := none
  video_path : Option String := none
  description : Option String := none
  hashtags : Option (List String) := none
  status : Option String := none
  errors : List String := []
deriving DecidableEq

/-- Patch on `OverallState` returned by a graph node; `none` = key absent
from the returned dict, an inner `Option` is the Python value (possibly
`None`). -/
structure OverallPatch where
  user_prompt : Option String := none
  requested_modalities : Option (List String) := none
  enhanced_prompt : Option (Option String) := none
  main_statement : Option (Option String) := none
  audio_path : Option (Option String) := none
  image_path : Option (Option String) := none
  description : Option (Option String) := none
  hashtags : Option (Option (List String)) := none
  status : Option String := none
  errors : Option (List String) := none
deriving DecidableEq

/-- `make_audio_subgraph_node` from `src/agent/nodes.py`: no-op unless
"audio" is requested; requires a truthy `enhanced_prompt`; invokes the audio
subgraph and patches only `audio_path` with `result.get("audio_path")`. -/
def make_audio_subgraph_node (g : AudioState → Except String AudioState)
    (state : OverallState) : Except String OverallPatch :=
  if "audio" ∉ state.requested_modalities then .ok {}
  else if truthyS state.enhanced_prompt then
    (g { script := some (state.enhanced_prompt.getD ""),
         main_statement := some (state.main_statement.getD "") }).map
      fun result => { audio_path := some result.audio_path }
  else .error "OverallState.enhanced_prompt is required for audio"

/-- The `assets` dict handed to the description subgraph. -/
structure Assets where
  audio : Option String := none
  image : Option String := none
  video : Option String := none
deriving DecidableEq

/-- `DescriptionState` from `src/agent/state.py`. -/
structure DescriptionState where
  prompt : Option String := none
  assets : Option Assets := none
  description : Option String := none
  hashtags : Option (List String) := none
  status : Option String := none
  errors : List String := []
deriving DecidableEq

/-- `result["output"]` of the description worker, read with
`.get("description", "")` / `.get("hashtags", [])`. -/
structure DescOutput where
  description : Option String := none
  hashtags : Option (List String) := none
deriving DecidableEq

/-- Patch returned by the description subgraph's `_run`. -/
structure DescriptionPatch where
  description : Option String := none
  hashtags : Option (List String) := none
  status : Option String := none
  errors : Option (List String) := none
deriving DecidableEq

/-- LangGraph merge of a patch into `DescriptionState`. -/
def mergeDescription (s : DescriptionState) (p : DescriptionPatch) : DescriptionState :=
  { s with
    description := p.description.or s.description,
    hashtags := p.hashtags.or s.hashtags,
    status := p.status.or s.status,
    errors := s.errors ++ p.errors.getD [] }

/-- `_run` of `build_description_subgraph`. -/
def description_run (worker : Nat → WorkerOutcome DescOutput Unit) (max_retries : Nat)
    (state : DescriptionState) : Except String DescriptionPatch :=
  match state.prompt with
  | none =>
    .ok { status := some "failed", errors := some ["Missing required fields: prompt"] }
  | some _ =>
    match (run_worker_with_error_handling worker "description_writer"
        classifyErrorE max_retries).1 with
    | .error e => .error e
    | .ok (.completed out _) =>
      .ok { description := some (out.description.getD ""),
            hashtags := some (out.hashtags.getD []), status := some "completed" }
    | .ok (.failed _ _ sugg) =>
      .ok { status := some "failed", errors := some [sugg] }

/-- The compiled description subgraph. -/
def description_graph (worker : Nat → WorkerOutcome DescOutput Unit)
    (max_retries : Nat) (payload : DescriptionState) : Except String DescriptionState :=
  (description_run worker max_retries payload).map (mergeDescription payload)

/-- `_description_ready` from `src/agent/nodes.py`: false when `description`
is truthy, when no supported modality is requested, or when some requested
supported modality's path is not truthy. -/
def _description_ready (state : OverallState) : Bool :=
  if truthyS state.description then false
  else
    let requested := state.requested_modalities.filter
      (fun m => m == "audio" || m == "image")
    if requested.isEmpty then false
    else
      (if requested.contains "audio" then truthyS state.audio_path else true) &&
      (if requested.contains "image" then truthyS state.image_path else true)

/-- `make_description_subgraph_node` from `src/agent/nodes.py`: no-op unless
`_description_ready`; requires a truthy `enhanced_prompt`; invokes the
description subgraph and patches `description`, `hashtags` and — 
unconditionally — `status: "completed"`. -/
def make_description_subgraph_node
    (g : DescriptionState → Except String DescriptionState)
    (state : OverallState) : Except String OverallPatch :=
  if ¬ _description_ready state then .ok {}
  else if truthyS state.enhanced_prompt then
    (g { prompt := some (state.enhanced_prompt.getD ""),
         assets := some { audio := state.audio_path, image := state.image_path,
                          video := state.video_path } }).map
      fun result =>
        { description := some result.description,
          hashtags := some result.hashtags,
          status := some "completed" }
  else .error "OverallState.enhanced_prompt is required for description"

/-- C1 (amended): when the audio worker run ends in operational failure, the
failure is contained: the audio subgraph's final state carries
`status: failed` and an appended `errors` entry (the classification's
suggestion), and the graph node returns normally (no exception, so sibling
branches are unaffected) — but its patch into `OverallState` sets only
`audio_path` to `None` and carries no `status` or `errors` key. -/
theorem audio_failure_contained (worker : Nat → WorkerOutcome AudioOutput Unit)
    (n : Nat) (state : OverallState) (e et sg : String)
    (hm : "audio" ∈ state.requested_modalities)
    (hep : truthyS state.enhanced_prompt = true)
    (hrun : (run_worker_with_error_handling worker "audio_generator"
        classifyErrorE n).1 = .ok (.failed e et sg)) :
    audio_graph worker n
      { script := some (state.enhanced_prompt.getD ""),
        main_statement := some (state.main_statement.getD "") } =
      .ok { script := some (state.enhanced_prompt.getD ""),
            main_statement := some (state.main_statement.getD ""),
            status := some "failed", errors := [sg] }
    ∧ make_audio_subgraph_node (audio_graph worker n) state =
      .ok { audio_path := some none } := by
  have hg : audio_graph worker n
      { script := some (state.enhanced_prompt.getD ""),
        main_statement := some (state.main_statement.getD "") } =
      .ok { script := some (state.enhanced_prompt.getD ""),
            main_statement := some (state.main_statement.getD ""),
            status := some "failed", errors := [sg] } := by
    unfold audio_graph audio_run
    simp only [hrun]
    rfl
  refine ⟨hg, ?_⟩
  unfold make_audio_subgraph_node
  rw [if_neg (not_not_intro hm), if_pos hep, hg]
  rfl

/-- Witness for C1 at a concrete failing worker (`max_retries = 1`,
"timeout hit" classified as network). -/
theorem audio_failure_contained_witness :
    (("audio" ∈
      ({ requested_modalities := ["audio"], enhanced_prompt := some "prompt" } :
        OverallState).requested_modalities)
      ∧ truthyS
        ({ requested_modalities := ["audio"], enhanced_prompt := some "prompt" } :
          OverallState).enhanced_prompt = true
      ∧ (run_worker_with_error_handling
          (fun _ => WorkerOutcome.fail (some "timeout hit") :
            Nat → WorkerOutcome AudioOutput Unit)
          "audio_generator" classifyErrorE 1).1 =
        .ok (.failed "timeout hit" "network" "Network issue, retry later."))
    ∧ (audio_graph (fun _ => WorkerOutcome.fail (some "timeout hit")) 1
        { script := some "prompt", main_statement := some "" } =
        .ok { script := some "prompt", main_statement := some "",
              status := some "failed",
              errors := ["Network issue, retry later."] }
      ∧ make_audio_subgraph_node
          (audio_graph (fun _ => WorkerOutcome.fail (some "timeout hit")) 1)
          { requested_modalities := ["audio"], enhanced_prompt := some "prompt" } =
        .ok { audio_path := some none }) :=
  ⟨⟨by decide, rfl, rfl⟩,
    audio_failure_contained (fun _ => WorkerOutcome.fail (some "timeout hit")) 1
      { requested_modalities := ["audio"], enhanced_prompt := some "prompt" }
      "timeout hit" "network" "Network issue, retry later." (by decide) rfl rfl⟩

/-- C1 counterexample: for a concrete operationally failing audio worker run,
the node's patch into `OverallState` has no `status: failed` and no `errors`
entry — both keys are absent; only `audio_path: None` is written. -/
theorem audio_failure_patch_cex :
    (run_worker_with_error_handling
        (fun _ => WorkerOutcome.fail (some "timeout hit") :
          Nat → WorkerOutcome AudioOutput Unit)
        "audio_generator" classifyErrorE 1).1 =
      .ok (.failed "timeout hit" "network" "Network issue, retry later.")
    ∧ make_audio_subgraph_node
        (audio_graph (fun _ => WorkerOutcome.fail (some "timeout hit")) 1)
        { requested_modalities := ["audio"], enhanced_prompt := some "prompt" } =
      .ok { audio_path := some none }
    ∧ ({ audio_path := some none } : OverallPatch).status = none
    ∧ ({ audio_path := some none } : OverallPatch).errors = none :=
  ⟨rfl, rfl, rfl, rfl⟩

/-- With `classify_error` as classifier (which never raises) the runner never
propagates an exception. -/
theorem runLoop_classifyErrorE_isOk {ω μ : Type} (worker : Nat → WorkerOutcome ω μ)
    (ctx : String) :
    ∀ (fuel a : Nat) (le : Option String),
      ((runLoop worker classifyErrorE ctx fuel a le).1).isOk = true := by
  intro fuel
  induction fuel with
  | zero => intro a le; rfl
  | succ fuel ih =>
    intro a le
    rw [runLoop]
    cases hw : worker a with
    | ok out meta => rfl
    | fail err =>
      simp only [afterFailure, classifyErrorE]
      by_cases hf : fuel = 0
      · rw [if_pos hf]; rfl
      · rw [if_neg hf]
        by_cases hr : (classify_error (pyStr err) ctx).is_retryable = true
        · rw [if_pos hr]
          exact ih (a + 1) err
        · rw [if_neg hr]; rfl
    | exn m =>
      simp only [afterFailure, classifyErrorE]
      by_cases hf : fuel = 0
      · rw [if_pos hf]; rfl
      · rw [if_neg hf]
        by_cases hr : (classify_error (pyStr (some m)) ctx).is_retryable = true
        · rw [if_pos hr]
          exact ih (a + 1) (some m)
        · rw [if_neg hr]; rfl

/-- C2 (amended): whenever the Description node fires (`_description_ready`
and truthy `enhanced_prompt`), its patch sets `status: "completed"`
unconditionally — also when the description subgraph run failed, in which
case the patch's `description` and `hashtags` are `None`. -/
theorem description_status_always_completed (worker : Nat → WorkerOutcome DescOutput Unit)
    (n : Nat) (state : OverallState)
    (hready : _description_ready state = true)
    (hep : truthyS state.enhanced_prompt = true) :
    ∃ d h, make_description_subgraph_node (description_graph worker n) state =
      .ok { description := some d, hashtags := some h, status := some "completed" } := by
  unfold make_description_subgraph_node
  rw [if_neg (by simp [hready]), if_pos hep]
  unfold description_graph description_run
  have hok : ((run_worker_with_error_handling worker "description_writer"
      classifyErrorE n).1).isOk = true :=
    runLoop_classifyErrorE_isOk worker "description_writer" n 0 none
  cases hx : (run_worker_with_error_handling worker "description_writer"
      classifyErrorE n).1 with
  | error e =>
    rw [hx] at hok
    simp [Except.isOk, Except.toBool] at hok
  | ok r =>
    cases r with
    | completed out meta =>
      exact ⟨some (out.description.getD ""), some (out.hashtags.getD []), rfl⟩
    | failed e t sg => exact ⟨none, none, rfl⟩

/-- Witness for C2: a ready state with a failing description worker. -/
theorem description_status_always_completed_witness :
    (_description_ready { requested_modalities := ["audio"], enhanced_prompt := some "p", audio_path := some "/tmp/a.mp3" } = true
    ∧ truthyS ({ requested_modalities := ["audio"], enhanced_prompt := some "p", audio_path := some "/tmp/a.mp3" } : OverallState).enhanced_prompt = true)
    ∧ ∃ d h, make_description_subgraph_node
        (description_graph (fun _ => WorkerOutcome.fail (some "generation blocked")) 1)
        { requested_modalities := ["audio"], enhanced_prompt := some "p", audio_path := some "/tmp/a.mp3" } =
      .ok { description := some d, hashtags := some h, status := some "completed" } :=
  ⟨⟨by decide, by decide⟩,
    description_status_always_completed
      (fun _ => WorkerOutcome.fail (some "generation blocked")) 1
      { requested_modalities := ["audio"], enhanced_prompt := some "p", audio_path := some "/tmp/a.mp3" }
      (by decide) (by decide)⟩

/-- C2 counterexample: with a description worker that fails ("generation
blocked", `max_retries = 1`), the subgraph run fails, yet the node's patch
still sets `status: "completed"` (with `description: None`). -/
theorem description_failed_still_completed_cex :
    (run_worker_with_error_handling
        (fun _ => WorkerOutcome.fail (some "generation blocked") :
          Nat → WorkerOutcome DescOutput Unit)
        "description_writer" classifyErrorE 1).1 =
      .ok (.failed "generation blocked" "generation" "Model generation issue, retry once.")
    ∧ make_description_subgraph_node
        (description_graph (fun _ => WorkerOutcome.fail (some "generation blocked")) 1)
        { requested_modalities := ["audio"], enhanced_prompt := some "p", audio_path := some "/tmp/a.mp3" } =
      .ok { description := some none, hashtags := some none, status := some "completed" } :=
  ⟨rfl, rfl⟩

/-- C3 (amended): the Description node returns an empty patch, for every
subgraph `g` (hence without invoking it), whenever some requested supported
modality's path field is unset (`None`), and whenever `description` is
truthy.  (A present-but-empty `description` of `""` does not block the node:
the guard is Python truthiness, not an is-not-None test — see the
counterexample.) -/
theorem description_gating (state : OverallState)
    (g : DescriptionState → Except String DescriptionState) :
    ((∃ m, m ∈ state.requested_modalities ∧ (m = "audio" ∨ m = "image") ∧
        (if m = "audio" then state.audio_path else state.image_path) = none) →
      make_description_subgraph_node g state = .ok {})
    ∧ (truthyS state.description = true →
      make_description_subgraph_node g state = .ok {}) := by
  have node_of_not_ready : _description_ready state = false →
      make_description_subgraph_node g state = .ok {} := by
    intro h
    unfold make_description_subgraph_node
    rw [if_pos (by simp [h])]
  constructor
  · rintro ⟨m, hm, hsup, hpath⟩
    apply node_of_not_ready
    unfold _description_ready
    cases hd : truthyS state.description with
    | true => simp
    | false =>
      simp only [Bool.false_eq_true, if_false]
      rcases hsup with rfl | rfl
      · have hmem : "audio" ∈ state.requested_modalities.filter
            (fun m => m == "audio" || m == "image") := by
          rw [List.mem_filter]
          exact ⟨hm, by decide⟩
        have hne : (state.requested_modalities.filter
            (fun m => m == "audio" || m == "image")).isEmpty = false := by
          cases hq : (state.requested_modalities.filter
              (fun m => m == "audio" || m == "image")).isEmpty with
          | false => rfl
          | true =>
            rw [List.isEmpty_iff] at hq
            rw [hq] at hmem
            exact absurd hmem (List.not_mem_nil _)
        have hcont : (state.requested_modalities.filter
            (fun m => m == "audio" || m == "image")).contains "audio" = true := by
          exact List.elem_eq_true_of_mem hmem
        have hap : state.audio_path = none := by simpa using hpath
        simp [hne, hcont, hap, truthyS]
        intro hn
        exact absurd hm hn
      · have hmem : "image" ∈ state.requested_modalities.filter
            (fun m => m == "audio" || m == "image") := by
          rw [List.mem_filter]
          exact ⟨hm, by decide⟩
        have hne : (state.requested_modalities.filter
            (fun m => m == "audio" || m == "image")).isEmpty = false := by
          cases hq : (state.requested_modalities.filter
              (fun m => m == "audio" || m == "image")).isEmpty with
          | false => rfl
          | true =>
            rw [List.isEmpty_iff] at hq
            rw [hq] at hmem
            exact absurd hmem (List.not_mem_nil _)
        have hcont : (state.requested_modalities.filter
            (fun m => m == "audio" || m == "image")).contains "image" = true := by
          exact List.elem_eq_true_of_mem hmem
        have hip : state.image_path = none := by simpa using hpath
        simp [hne, hcont, hip, truthyS]
        exact fun _ => hm
  · intro hd
    apply node_of_not_ready
    unfold _description_ready
    simp [hd]

/-- Witness for C3: audio requested, `audio_path` unset; the node no-ops for
a subgraph that would fail if invoked. -/
theorem description_gating_witness :
    (∃ m, m ∈ ({ requested_modalities := ["audio"], enhanced_prompt := some "p" } : OverallState).requested_modalities
      ∧ (m = "audio" ∨ m = "image")
      ∧ (if m = "audio"
          then ({ requested_modalities := ["audio"], enhanced_prompt := some "p" } : OverallState).audio_path
          else ({ requested_modalities := ["audio"], enhanced_prompt := some "p" } : OverallState).image_path) = none)
    ∧ make_description_subgraph_node (fun _ => Except.error "not invoked")
        { requested_modalities := ["audio"], enhanced_prompt := some "p" } = .ok {} :=
  ⟨⟨"audio", by decide, Or.inl rfl, by decide⟩,
    (description_gating { requested_modalities := ["audio"], enhanced_prompt := some "p" }
      (fun _ => Except.error "not invoked")).1 ⟨"audio", by decide, Or.inl rfl, by decide⟩⟩

/-- C3 counterexample: with `description` set to the non-`None` empty string
`""`, the node does not return an empty patch — it re-invokes the subgraph
and patches `description`, `hashtags` and `status`. -/
theorem description_empty_string_cex :
    ({ requested_modalities := ["audio"], enhanced_prompt := some "p", audio_path := some "/a.mp3", description := some "" } : OverallState).description ≠ none
    ∧ make_description_subgraph_node
        (description_graph (fun _ => WorkerOutcome.ok { description := some "great", hashtags := some ["#x"] } ()) 1)
        { requested_modalities := ["audio"], enhanced_prompt := some "p", audio_path := some "/a.mp3", description := some "" } =
      .ok { description := some (some "great"), hashtags := some (some ["#x"]), status := some "completed" }
    ∧ ({ description := some (some "great"), hashtags := some (some ["#x"]), status := some "completed" } : OverallPatch) ≠ ({} : OverallPatch) :=
  ⟨by decide, rfl, by decide⟩
